import Mathlib

/-!
Shallow embedding of the pullcord incremental log-puller core:
the `logentry` row encoder (src/unnamed/part_000, package logentry) and the
`logpull` orchestrator (src/logpull/main.go).  Remote fetches are modelled as
oracles, the log files as lists of rows, `time.Now()` as an explicit `now`
argument, a Go `panic` as an `Option String` outcome (or `Except.error` in the
encoder), and bounded loops take explicit fuel.  Components of the repository
that are not under src/ (`logutil.Equals`, `logutil.GuildCache`,
`logutil.LastMessageID`, `logformat.Write`, the `logentry` per-type wrappers)
are modelled from the spec and marked as such in their doc comments.
-/

namespace Pullcord

/-- discordgo.User, the fields read by the encoder. -/
structure User where
  ID : String
  Username : String
  Discriminator : String
  Avatar : String
deriving Repr, DecidableEq

/-- discordgo.Member, the fields read by the encoder and orchestrator. -/
structure Member where
  User : User
  Nick : String
  Roles : List String
deriving Repr, DecidableEq

/-- discordgo.Emoji, the fields read by the encoder. -/
structure Emoji where
  ID : String
  Name : String
  RequireColons : Bool
deriving Repr, DecidableEq

/-- discordgo's Emoji.APIName. -/
def Emoji.APIName (e : Emoji) : String :=
  if e.ID ≠ "" ∧ e.Name ≠ "" then e.Name ++ ":" ++ e.ID
  else if e.Name ≠ "" then e.Name
  else e.ID

/-- discordgo.MessageReference. -/
structure MessageReference where
  MessageID : String
  ChannelID : String
  GuildID : String
deriving Repr, DecidableEq

/-- discordgo.MessageAttachment, the fields read here. -/
structure MessageAttachment where
  ID : String
  URL : String
  Filename : String
deriving Repr, DecidableEq

/-- discordgo.MessageEmbed, carried opaquely: the encoder only ever serializes
it with json.Marshal, modelled as the stored `json` payload. -/
structure MessageEmbed where
  json : String
deriving Repr, DecidableEq

/-- discordgo.MessageReactions (a reaction summary on a message): reported
count plus the emoji. -/
structure MessageReactions where
  Count : Int
  Emoji : Emoji
deriving Repr, DecidableEq

/-- discordgo.MessageReaction (one user's reaction). -/
structure MessageReaction where
  UserID : String
  MessageID : String
  Emoji : Emoji
  ChannelID : String
deriving Repr, DecidableEq

/-- discordgo.Message, the fields read by the encoder and orchestrator.
`MsgType` models the Go field `Type` (Lean reserves that name);
`EditedTimestamp` is a nullable pointer, modelled as `Option`. -/
structure Message where
  ID : String
  Author : User
  EditedTimestamp : Option String
  TTS : Bool
  Content : String
  WebhookID : String
  MsgType : Nat
  MessageReference : Option MessageReference
  Embeds : List MessageEmbed
  Attachments : List MessageAttachment
  Reactions : List MessageReactions
deriving Repr, DecidableEq

/-- logentry.Attachment: an embedded discordgo.MessageAttachment plus the
owning message id. -/
structure Attachment where
  MessageAttachment : MessageAttachment
  MessageID : String
deriving Repr, DecidableEq

/-- logentry.Reaction: an embedded discordgo.MessageReaction plus a count. -/
structure Reaction where
  MessageReaction : MessageReaction
  Count : Int
deriving Repr, DecidableEq

/-- logentry.Embed: an embedded discordgo.MessageEmbed plus the owning
message id. -/
structure Embed where
  MessageEmbed : MessageEmbed
  MessageID : String
deriving Repr, DecidableEq

/-- discordgo.PermissionOverwrite. `OverType` models the Go field `Type`. -/
structure PermissionOverwrite where
  ID : String
  OverType : Nat
  Allow : Int
  Deny : Int
deriving Repr, DecidableEq

/-- discordgo.Channel, the fields read here. `ChanType` models the Go field
`Type`. -/
structure Channel where
  ID : String
  ChanType : Nat
  Position : Int
  Name : String
  Topic : String
  NSFW : Bool
  ParentID : String
  Recipients : List User
  Icon : String
  GuildID : String
  PermissionOverwrites : List PermissionOverwrite
deriving Repr, DecidableEq

/-- discordgo.Role. -/
structure Role where
  ID : String
  Name : String
  Color : Int
  Position : Int
  Permissions : Int
  Hoist : Bool
deriving Repr, DecidableEq

/-- discordgo.Guild, the fields read here. -/
structure Guild where
  ID : String
  Name : String
  Icon : String
  Splash : String
  OwnerID : String
  AfkChannelID : String
  AfkTimeout : Int
  WidgetEnabled : Bool
  WidgetChannelID : String
  Channels : List Channel
  Roles : List Role
  Emojis : List Emoji
deriving Repr, DecidableEq

/-- The closed set of entity kinds the encoder's interface-switch recognizes,
in the order of the `Type` switch in logentry. -/
inductive Entity
  | message (m : Message)
  | attachment (a : Attachment)
  | reaction (r : Reaction)
  | embed (e : Embed)
  | guild (g : Guild)
  | member (m : Member)
  | role (r : Role)
  | channel (c : Channel)
  | permoverwrite (o : PermissionOverwrite)
  | emoji (e : Emoji)
deriving Repr, DecidableEq

/-- logentry.Type: the entity-type tag written in column 3 of every row
(Lean reserves the name `Type`). -/
def Type' : Entity → String
  | .message _ => "message"
  | .attachment _ => "attachment"
  | .reaction _ => "reaction"
  | .embed _ => "embed"
  | .guild _ => "guild"
  | .member _ => "member"
  | .role _ => "role"
  | .channel _ => "channel"
  | .permoverwrite _ => "permoverwrite"
  | .emoji _ => "emoji"

/-- logentry.idsFromUsers. -/
def idsFromUsers (users : List User) : List String :=
  users.map fun u => u.ID

/-- logentry.formatBool. -/
def formatBool (name : String) (b : Bool) : String :=
  if b then name else ""

/-- discordgo MessageType constants used by the encoder. -/
def MessageTypeDefault : Nat := 0
def MessageTypeRecipientAdd : Nat := 1
def MessageTypeRecipientRemove : Nat := 2
def MessageTypeCall : Nat := 3
def MessageTypeChannelNameChange : Nat := 4
def MessageTypeChannelIconChange : Nat := 5
def MessageTypeChannelPinnedMessage : Nat := 6
def MessageTypeGuildMemberJoin : Nat := 7
def MessageTypeReply : Nat := 19
def MessageTypeChatInputCommand : Nat := 20

/-- logentry.formatMessageType: known subtypes map to fixed tags, the default
case logs and renders a visible unknown-N sentinel. -/
def formatMessageType (t : Nat) : String :=
  if t = MessageTypeDefault then ""
  else if t = MessageTypeRecipientAdd then "recipient_add"
  else if t = MessageTypeRecipientRemove then "recipient_remove"
  else if t = MessageTypeCall then "call"
  else if t = MessageTypeChannelNameChange then "channel_name_change"
  else if t = MessageTypeChannelIconChange then "channel_icon_change"
  else if t = MessageTypeChannelPinnedMessage then "channel_pinned_message"
  else if t = MessageTypeGuildMemberJoin then "guild_member_join"
  else if t = MessageTypeReply then "reply"
  else if t = MessageTypeChatInputCommand then "application_command"
  else "unknown-" ++ toString t

/-- discordgo ChannelType constants used by the encoder. -/
def ChannelTypeGuildText : Nat := 0
def ChannelTypeDM : Nat := 1
def ChannelTypeGuildVoice : Nat := 2
def ChannelTypeGroupDM : Nat := 3
def ChannelTypeGuildCategory : Nat := 4
def ChannelTypeGuildNews : Nat := 5
def ChannelTypeGuildStore : Nat := 6

/-- logentry.formatChannelType: known subtypes map to fixed tags, the default
case returns the "invalid" sentinel (the panic there is commented out in the
source). -/
def formatChannelType (t : Nat) : String :=
  if t = ChannelTypeGuildText then "text"
  else if t = ChannelTypeGuildVoice then "voice"
  else if t = ChannelTypeGuildCategory then "category"
  else if t = ChannelTypeDM then "dm"
  else if t = ChannelTypeGroupDM then "groupdm"
  else if t = ChannelTypeGuildNews then "news"
  else if t = ChannelTypeGuildStore then "store"
  else "invalid"

/-- discordgo PermissionOverwriteType constants. -/
def PermissionOverwriteTypeRole : Nat := 0
def PermissionOverwriteTypeMember : Nat := 1

/-- logentry.formatPermOverwriteType: role and member map to fixed tags, but
the default case calls log.Panicf, modelled as `Except.error` (the
`return "invalid"` after the panic is unreachable). -/
def formatPermOverwriteType (t : Nat) : Except String String :=
  if t = PermissionOverwriteTypeRole then Except.ok "role"
  else if t = PermissionOverwriteTypeMember then Except.ok "member"
  else Except.error ("unsupported permission overwrite type " ++ toString t)

/-- Character order by code point (UTF-8 byte order and code-point order
coincide, as Go's string comparison does). -/
def charLtN (a b : Char) : Bool := a.toNat < b.toNat

/-- Lexicographic strict order on character lists. -/
def strLtL : List Char → List Char → Bool
  | [], [] => false
  | [], _ :: _ => true
  | _ :: _, [] => false
  | c :: cs, d :: ds =>
    if charLtN c d then true
    else if charLtN d c then false
    else strLtL cs ds

/-- Go's string `<=`, on the underlying characters. -/
def strLe (a b : String) : Bool := !(strLtL b.data a.data)

/-- Ordered insertion into an ascending list of strings. -/
def insertStr (s : String) : List String → List String
  | [] => [s]
  | t :: ts => if strLe s t then s :: t :: ts else t :: insertStr s ts

/-- sort.StringSlice(...).Sort(): ascending lexicographic string sort
(insertion sort; agrees with any comparison sort since ties are equal
strings). -/
def sortStrings : List String → List String
  | [] => []
  | s :: ss => insertStr s (sortStrings ss)

/-- The body of logentry.Make's type switch: the entity-specific field tuple,
plus the entity value as it stands after the call (the member case sorts the
member's Roles slice in place, so the caller's value changes).  The
permission-overwrite case propagates the formatter's panic. -/
def MakeFields : Entity → Except String (List String × Entity)
  | .message m =>
    let refs : String × String × String :=
      match m.MessageReference with
      | some mr => (mr.GuildID, mr.ChannelID, mr.MessageID)
      | none => ("", "", "")
    let edited_time : String :=
      match m.EditedTimestamp with
      | none => ""
      | some t => t
    let row := [m.ID, m.Author.ID, edited_time, formatBool "tts" m.TTS,
      m.Content, formatBool "webhook" (m.WebhookID != ""), m.Author.Username,
      m.Author.Avatar, formatMessageType m.MsgType, refs.1, refs.2.1, refs.2.2]
    -- only webhooks can override username/avatar at the moment
    let row := if m.WebhookID = "" then (row.set 6 "").set 7 "" else row
    Except.ok (row, .message m)
  | .attachment a =>
    Except.ok ([a.MessageAttachment.ID, a.MessageID, a.MessageAttachment.Filename],
      .attachment a)
  | .reaction r =>
    Except.ok ([r.MessageReaction.UserID, r.MessageReaction.MessageID,
      r.MessageReaction.Emoji.APIName, toString r.Count], .reaction r)
  | .embed e =>
    Except.ok ([e.MessageID, e.MessageEmbed.json], .embed e)
  | .guild g =>
    Except.ok ([g.ID, g.Name, g.Icon, g.Splash, g.OwnerID, g.AfkChannelID,
      toString g.AfkTimeout, formatBool "embeddable" g.WidgetEnabled,
      g.WidgetChannelID], .guild g)
  | .member mem =>
    let roles := sortStrings mem.Roles
    Except.ok ([mem.User.ID, mem.User.Username, mem.User.Discriminator,
      mem.User.Avatar, mem.Nick, String.intercalate "," roles],
      .member { mem with Roles := roles })
  | .role r =>
    Except.ok ([r.ID, r.Name, toString r.Color, toString r.Position,
      toString r.Permissions, formatBool "hoist" r.Hoist], .role r)
  | .channel c =>
    Except.ok ([c.ID, formatChannelType c.ChanType, toString c.Position,
      c.Name, c.Topic, formatBool "nsfw" c.NSFW, c.ParentID,
      String.intercalate "," (idsFromUsers c.Recipients), c.Icon], .channel c)
  | .permoverwrite o =>
    match formatPermOverwriteType o.OverType with
    | .error e => Except.error e
    | .ok ts =>
      Except.ok ([o.ID, ts, toString o.Allow, toString o.Deny], .permoverwrite o)
  | .emoji e =>
    Except.ok ([e.ID, e.Name, formatBool "nocolons" (!e.RequireColons)], .emoji e)

/-- logentry.Make: prefixes the entity field tuple with
`(Timestamp(), ftype, op, Type(v))`.  `time.Now()` is modelled as the explicit
`now` argument; the result also carries the entity as left after the call. -/
def Make (now ftype op : String) (v : Entity) : Except String (List String × Entity) :=
  match MakeFields v with
  | .error e => Except.error e
  | .ok (row, vAfter) => Except.ok ([now, ftype, op, Type' v] ++ row, vAfter)

/-- The entity value as logentry.Make leaves it: unchanged except that the
member case sorts the member's role-id list in place. -/
def MakeEnt : Entity → Entity
  | .member mem => .member { mem with Roles := sortStrings mem.Roles }
  | v => v

/-- One encoded log row; a log file is the list of its rows. -/
abbrev Row := List String

/-- logutil.EntryCache, modelled from the spec (§3): a mapping from entity
type to a mapping from entity id to that entity's most recently written row.
A missing slot is the nil slice, i.e. `[]`. -/
abbrev EntryCache := String → String → Row

/-- The empty EntryCache (`make(logutil.EntryCache)` in Pull). -/
def emptyCache : EntryCache := fun _ _ => []

/-- Modelled from the spec: logutil.GuildCache (§3, §4.3) replays a guild log
file top to bottom into an EntryCache keyed by the entity-type column (index
3) and the id column (index 4), last write wins.  Structural parse failures
are outside this structured-row model, so the reconstruction is total here. -/
def GuildCache (file : List Row) : EntryCache :=
  file.foldl (fun c row => fun t i =>
    if t = row.getD 3 "" ∧ i = row.getD 4 "" then row else c t i) emptyCache

/-- Modelled from the spec: logutil.Equals (§3, §4.4) is exact field-tuple
equality — the entity fields after the `(timestamp, fetch_type, operation,
entity_type)` prefix are compared, the prefix is not. -/
def Equals (a b : Row) : Bool :=
  a.drop 4 == b.drop 4

/-- Modelled from the spec: logutil.LastMessageID (§4.5) returns the id of
the last row tagged with the message entity type, and a not-found error when
the file holds no message row. -/
def LastMessageID (file : List Row) : Except Unit String :=
  match (file.filter fun r => r.getD 3 "" == "message").getLast? with
  | some r => Except.ok (r.getD 4 "")
  | none => Except.error ()

/-- Modelled from the spec: logformat.Write (§4.2) appends one encoded row to
the log file, which is opened in append/create mode and only ever grows. -/
def Write (file : List Row) (e : Row) : List Row :=
  file ++ [e]

/-- The `if !logutil.Equals(cache[t][id], e) { logformat.Write(f, e) }`
pattern used throughout pullGuild. -/
def cdWrite (cache : EntryCache) (t i : String) (e : Row) (file : List Row) : List Row :=
  if !(Equals (cache t i) e) then Write file e else file

/-- The external remote fetch collaborator, as one oracle per capability.
`guildRes` is d.Guild; `memberFetch` is d.GuildMembers at a given after
cursor; `messageFetch` is d.ChannelMessages at a given after cursor;
`reactionUsers` is d.MessageReactions for a message id and emoji API name.
An `Except.error` is a failed remote call (the Go err value). -/
structure Remote where
  guildRes : Except Unit Guild
  memberFetch : String → Except Unit (List Member)
  messageFetch : String → Except Unit (List Message)
  reactionUsers : String → String → Except Unit (List User)

/-- The member-writing inner loop of pullGuild (main.go lines 128-142): for
each member the cursor becomes m.User.ID, the avatar download is the external
best-effort media collaborator, and the member row is change-detect written
under the "user" cache key.  Returns the final cursor, file and panic. -/
def writeMembers (now : String) (cache : EntryCache) :
    List Member → String → List Row → String × List Row × Option String
  | [], after, file => (after, file, none)
  | m :: ms, _after, file =>
    match Make now "history" "add" (.member m) with
    | .error e => (m.User.ID, file, some e)
    | .ok (uEntry, _) =>
      writeMembers now cache ms m.User.ID (cdWrite cache "user" m.User.ID uEntry file)

/-- The member pagination loop of pullGuild (main.go lines 116-145), with
explicit fuel bounding the observed iterations and the list of `after`
cursors passed to d.GuildMembers recorded in `calls`.  On a fetch error the
loop logs and `continue`s, reissuing the fetch with the same cursor; an empty
batch ends the loop. -/
def membersLoop (remote : Remote) (now : String) (cache : EntryCache) :
    Nat → String → List Row → List String → List Row × List String × Option String
  | 0, _after, file, calls => (file, calls, none)
  | fuel + 1, after, file, calls =>
    let calls := calls ++ [after]
    match remote.memberFetch after with
    | .error _ =>
      -- error logged; `continue` retries the identical fetch
      membersLoop remote now cache fuel after file calls
    | .ok members =>
      if members.isEmpty then (file, calls, none)
      else
        match writeMembers now cache members after file with
        | (_, file, some p) => (file, calls, some p)
        | (after, file, none) => membersLoop remote now cache fuel after file calls

/-- The permission-overwrite loop of pullGuild (main.go lines 90-95):
change-detect write each overwrite under the "permoverwrite" key; an encoder
panic (unknown overwrite type) propagates. -/
def writePermOverwrites (now : String) (cache : EntryCache) :
    List PermissionOverwrite → List Row → List Row × Option String
  | [], file => (file, none)
  | o :: os, file =>
    match Make now "history" "add" (.permoverwrite o) with
    | .error e => (file, some e)
    | .ok (oEntry, _) =>
      writePermOverwrites now cache os (cdWrite cache "permoverwrite" o.ID oEntry file)

/-- The channel loop of pullGuild (main.go lines 84-96): change-detect write
each channel under the "channel" key, then its permission overwrites. -/
def writeChannels (now : String) (cache : EntryCache) :
    List Channel → List Row → List Row × Option String
  | [], file => (file, none)
  | c :: cs, file =>
    match Make now "history" "add" (.channel c) with
    | .error e => (file, some e)
    | .ok (cEntry, _) =>
      let file := cdWrite cache "channel" c.ID cEntry file
      match writePermOverwrites now cache c.PermissionOverwrites file with
      | (file, some p) => (file, some p)
      | (file, none) => writeChannels now cache cs file

/-- The role loop of pullGuild (main.go lines 98-103). -/
def writeRoles (now : String) (cache : EntryCache) :
    List Role → List Row → List Row × Option String
  | [], file => (file, none)
  | r :: rs, file =>
    match Make now "history" "add" (.role r) with
    | .error e => (file, some e)
    | .ok (rEntry, _) =>
      writeRoles now cache rs (cdWrite cache "role" r.ID rEntry file)

/-- The emoji loop of pullGuild (main.go lines 105-114); the emoji download
is the external best-effort media collaborator. -/
def writeEmojis (now : String) (cache : EntryCache) :
    List Emoji → List Row → List Row × Option String
  | [], file => (file, none)
  | e :: es, file =>
    match Make now "history" "add" (.emoji e) with
    | .error err => (file, some err)
    | .ok (eEntry, _) =>
      writeEmojis now cache es (cdWrite cache "emoji" e.ID eEntry file)

/-- logpull.pullGuild (main.go lines 51-146).  The guild file is opened
O_CREATE|O_WRONLY|O_APPEND, so `file` holds the rows already on disk and only
grows.  When d.Guild fails the error is merely logged and the else branch is
skipped, after which `for _, c := range guild.Channels` dereferences the nil
guild pointer: a runtime panic, modelled as the `some` third component.
Icon/splash downloads are the external best-effort media collaborator.
Returns the final file, the member-fetch cursor trace and the panic, if any. -/
def pullGuild (remote : Remote) (now : String) (fuel : Nat) (id : String)
    (cache : EntryCache) (file : List Row) : List Row × List String × Option String :=
  match remote.guildRes with
  | .error _ =>
    (file, [], some "invalid memory address or nil pointer dereference")
  | .ok guild =>
    match Make now "history" "add" (.guild guild) with
    | .error e => (file, [], some e)
    | .ok (gEntry, _) =>
    let file := cdWrite cache "guild" id gEntry file
    match writeChannels now cache guild.Channels file with
    | (file, some p) => (file, [], some p)
    | (file, none) =>
    match writeRoles now cache guild.Roles file with
    | (file, some p) => (file, [], some p)
    | (file, none) =>
    match writeEmojis now cache guild.Emojis file with
    | (file, some p) => (file, [], some p)
    | (file, none) => membersLoop remote now cache fuel "0" file []

/-- The per-user reaction-row loop of pullChannel (main.go lines 192-200):
one reaction row per enumerated user.  The count column of the wrapper
logentry.Reaction is modelled from the spec as 0 (§3: the count is only
meaningful for the anonymized overflow variant; the wrapper itself is not
under src/). -/
def writeReactionUsers (now chanID msgID : String) (em : Emoji) :
    List User → List Row → List Row × Option String
  | [], file => (file, none)
  | u :: us, file =>
    let reaction : MessageReaction :=
      { UserID := u.ID, MessageID := msgID, Emoji := em, ChannelID := chanID }
    match Make now "history" "add" (.reaction ⟨reaction, 0⟩) with
    | .error e => (file, some e)
    | .ok (row, _) => writeReactionUsers now chanID msgID em us (Write file row)

/-- The anonymized-overflow block of one reaction (main.go lines 202-212):
when the reported count exceeds the constant 100, write count-100 anonymous
rows (empty user id). -/
def overflowRows (now chanID msgID : String) (r : MessageReactions)
    (file : List Row) : List Row × Option String :=
  if r.Count > 100 then
    let reaction : MessageReaction :=
      { UserID := "", MessageID := msgID, Emoji := r.Emoji, ChannelID := chanID }
    match Make now "history" "add" (.reaction ⟨reaction, 0⟩) with
    | .error e => (file, some e)
    | .ok (row, _) => (file ++ List.replicate (r.Count - 100).toNat row, none)
  else (file, none)

/-- One reaction of one message in pullChannel (main.go lines 186-213): fetch
the reacting users with a single bounded call (limit 100) — on error the
failure is only logged and `users` stays nil — write one named row per
returned user, then the anonymized-overflow block. -/
def processReaction (remote : Remote) (now chanID msgID : String)
    (r : MessageReactions) (file : List Row) : List Row × Option String :=
  let users :=
    match remote.reactionUsers msgID r.Emoji.APIName with
    | .error _ => []
    | .ok us => us
  match writeReactionUsers now chanID msgID r.Emoji users file with
  | (file, some p) => (file, some p)
  | (file, none) => overflowRows now chanID msgID r file

/-- The reaction loop of one message (main.go lines 186-213). -/
def processReactions (remote : Remote) (now chanID msgID : String) :
    List MessageReactions → List Row → List Row × Option String
  | [], file => (file, none)
  | r :: rs, file =>
    match processReaction remote now chanID msgID r file with
    | (file, some p) => (file, some p)
    | (file, none) => processReactions remote now chanID msgID rs file

/-- The embed loop of one message (main.go lines 173-175): embed rows are
written unconditionally. -/
def writeEmbedRows (now msgID : String) :
    List MessageEmbed → List Row → List Row × Option String
  | [], file => (file, none)
  | e :: es, file =>
    match Make now "history" "add" (.embed ⟨e, msgID⟩) with
    | .error err => (file, some err)
    | .ok (row, _) => writeEmbedRows now msgID es (Write file row)

/-- The attachment loop of one message (main.go lines 177-184): the download
is the external best-effort media collaborator and its failure does not block
the unconditional attachment row write. -/
def writeAttachmentRows (now msgID : String) :
    List MessageAttachment → List Row → List Row × Option String
  | [], file => (file, none)
  | a :: as_, file =>
    match Make now "history" "add" (.attachment ⟨a, msgID⟩) with
    | .error err => (file, some err)
    | .ok (row, _) => writeAttachmentRows now msgID as_ (Write file row)

/-- One message of a page (main.go lines 170-214 body): the message row is
written unconditionally, then its embeds, attachments and reactions. -/
def processMessage (remote : Remote) (now chanID : String) (m : Message)
    (file : List Row) : List Row × Option String :=
  match Make now "history" "add" (.message m) with
  | .error e => (file, some e)
  | .ok (row, _) =>
  let file := Write file row
  match writeEmbedRows now m.ID m.Embeds file with
  | (file, some p) => (file, some p)
  | (file, none) =>
  match writeAttachmentRows now m.ID m.Attachments file with
  | (file, some p) => (file, some p)
  | (file, none) => processReactions remote now chanID m.ID m.Reactions file

/-- The `for i := len(msgs) - 1; i >= 0; i--` walk over one page (main.go
lines 170-214): the caller passes the page already reversed, so messages are
processed in ascending id order. -/
def processMessagesAsc (remote : Remote) (now chanID : String) :
    List Message → List Row → List Row × Option String
  | [], file => (file, none)
  | m :: ms, file =>
    match processMessage remote now chanID m file with
    | (file, some p) => (file, some p)
    | (file, none) => processMessagesAsc remote now chanID ms file

/-- The message pagination loop of pullChannel (main.go lines 157-217), with
explicit fuel and the `after` cursors passed to d.ChannelMessages recorded in
`calls`.  On a fetch error the failure is only logged, msgs stays nil and the
empty check ends the loop; otherwise the cursor becomes msgs[0].ID (the
maximum id, as pages arrive in descending order) and the page is walked in
reverse, i.e. ascending id order. -/
def messagesLoop (remote : Remote) (now chanID : String) :
    Nat → String → List Row → List String → List Row × List String × Option String
  | 0, _after, file, calls => (file, calls, none)
  | fuel + 1, after, file, calls =>
    let calls := calls ++ [after]
    let msgs :=
      match remote.messageFetch after with
      | .error _ => []
      | .ok l => l
    match msgs with
    | [] => (file, calls, none)
    | m0 :: _ =>
      match processMessagesAsc remote now chanID msgs.reverse file with
      | (file, some p) => (file, calls, some p)
      | (file, none) => messagesLoop remote now chanID fuel m0.ID file calls

/-- logpull.pullChannel (main.go lines 148-218).  The channel file is opened
O_CREATE|O_WRONLY|O_APPEND, so `file` holds the rows already on disk and only
grows; `gid` is used only for the file path and log lines. -/
def pullChannel (remote : Remote) (now : String) (fuel : Nat)
    (gid id after : String) (file : List Row) : List Row × List String × Option String :=
  let _ := gid
  messagesLoop remote now id fuel after file []

/-- The file-system state one Pull call sees and leaves: the run-scoped
fetchedGuilds set, the guild file and the channel file (`none` = file does
not exist; opening for append creates it), plus a pending panic. -/
structure PullState where
  fetchedGuilds : List String
  guildFile : Option (List Row)
  chanFile : Option (List Row)
  panicMsg : Option String
deriving Repr, DecidableEq

/-- The tail of logpull.Pull after the guild-once gate (main.go lines 40-48):
resolve the resume cursor from the channel file when it exists — a
LastMessageID failure logs and skips the channel — then pullChannel. -/
def pullAfterGuild (remote : Remote) (now : String) (fuel : Nat) (c : Channel)
    (st : PullState) : PullState :=
  match st.chanFile with
  | none =>
    let r := pullChannel remote now fuel c.GuildID c.ID "0" []
    { st with chanFile := some r.1, panicMsg := r.2.2 }
  | some cf =>
    match LastMessageID cf with
    | .error _ => st
    | .ok last =>
      let r := pullChannel remote now fuel c.GuildID c.ID last cf
      { st with chanFile := some r.1, panicMsg := r.2.2 }

/-- logpull.Pull (main.go lines 18-49).  os.MkdirAll is the file-system
collaborator, modelled as succeeding.  The guild-once gate marks the guild as
fetched *before* reconstructing the cache and calling pullGuild; a pullGuild
panic aborts the whole process, so nothing after it runs. -/
def Pull (remote : Remote) (now : String) (fuel : Nat) (c : Channel)
    (st : PullState) : PullState :=
  if st.fetchedGuilds.contains c.GuildID then
    pullAfterGuild remote now fuel c st
  else
    let st := { st with fetchedGuilds := c.GuildID :: st.fetchedGuilds }
    let cache : EntryCache :=
      match st.guildFile with
      | some gf => GuildCache gf
      | none => emptyCache
    let r := pullGuild remote now fuel c.GuildID cache (st.guildFile.getD [])
    let st := { st with guildFile := some r.1, panicMsg := r.2.2 }
    match r.2.2 with
    | some _ => st
    | none => pullAfterGuild remote now fuel c st

/-! Concrete scenario data used to evaluate the orchestrator. -/

/-- A user with no avatar. -/
def u1 : User := { ID := "u1", Username := "alice", Discriminator := "0001", Avatar := "" }

/-- A member whose role list arrives unsorted. -/
def m1 : Member := { User := u1, Nick := "", Roles := ["r2", "r1"] }

/-- A guild with no channels, roles or emoji and one member. -/
def g1 : Guild :=
  { ID := "g1"
    Name := "G"
    Icon := ""
    Splash := ""
    OwnerID := "u1"
    AfkChannelID := ""
    AfkTimeout := 0
    WidgetEnabled := false
    WidgetChannelID := ""
    Channels := []
    Roles := []
    Emojis := [] }

/-- The channel Pull is invoked on. -/
def chan1 : Channel :=
  { ID := "c1"
    ChanType := 0
    Position := 0
    Name := "general"
    Topic := ""
    NSFW := false
    ParentID := ""
    Recipients := []
    Icon := ""
    GuildID := "g1"
    PermissionOverwrites := [] }

/-- A healthy remote: guild g1, one member page then an empty one, no
messages.  Being a function of the request, it models an unchanged remote
across runs. -/
def R1 : Remote :=
  { guildRes := .ok g1
    memberFetch := fun a => if a = "0" then .ok [m1] else .ok ([] : List Member)
    messageFetch := fun _ => .ok ([] : List Message)
    reactionUsers := fun _ _ => .ok ([] : List User) }

/-- The row Make produces for an entity at capture time `now` (Make cannot
panic on the entities this is applied to). -/
def rowOf (now : String) (v : Entity) : Row :=
  match Make now "history" "add" v with
  | .ok p => p.1
  | .error _ => []

/-- Fresh state: no files on disk, empty run-scoped gate. -/
def st0 : PullState :=
  { fetchedGuilds := [], guildFile := none, chanFile := none, panicMsg := none }

/-- First Pull invocation over g1/c1. -/
def run1 : PullState := Pull R1 "t1" 5 chan1 st0

/-- Second Pull invocation, remote unchanged, fresh run-scoped gate (a new
process run), at a later capture time. -/
def run2 : PullState := Pull R1 "t2" 5 chan1 { run1 with fetchedGuilds := [] }

/-- A remote whose guild fetch fully fails. -/
def RGerr : Remote :=
  { guildRes := .error ()
    memberFetch := fun _ => .ok ([] : List Member)
    messageFetch := fun _ => .ok ([] : List Message)
    reactionUsers := fun _ _ => .ok ([] : List User) }

/-- A guild file already holding the guild row and the member row, as run1
writes them. -/
def gfile1 : List Row := [rowOf "t1" (.guild g1), rowOf "t1" (.member m1)]

/-- A remote where every fetch fails. -/
def Rerr : Remote :=
  { guildRes := .error ()
    memberFetch := fun _ => .error ()
    messageFetch := fun _ => .error ()
    reactionUsers := fun _ _ => .error () }

/-- An emoji with no id, so its API name is its name. -/
def emjT : Emoji := { ID := "", Name := "thumbs", RequireColons := true }

/-- A reaction summary with reported count 150. -/
def r150 : MessageReactions := { Count := 150, Emoji := emjT }

/-- Forty enumerable reacting users. -/
def users40 : List User :=
  (List.range 40).map fun i =>
    { ID := "u" ++ toString i, Username := "", Discriminator := "", Avatar := "" }

/-- A remote whose reaction-user fetch enumerates only 40 users. -/
def R4 : Remote :=
  { guildRes := .ok g1
    memberFetch := fun _ => .ok ([] : List Member)
    messageFetch := fun _ => .ok ([] : List Message)
    reactionUsers := fun _ _ => .ok users40 }

/-- A plain message with a given id and nothing attached. -/
def msgN (i : String) : Message :=
  { ID := i
    Author := u1
    EditedTimestamp := none
    TTS := false
    Content := ""
    WebhookID := ""
    MsgType := 0
    MessageReference := none
    Embeds := []
    Attachments := []
    Reactions := [] }

/-- A remote whose message page at cursor 5 contains ids 8,7,6,5 descending —
including the cursor id itself, as in the claim's scenario. -/
def R6bad : Remote :=
  { guildRes := .ok g1
    memberFetch := fun _ => .ok ([] : List Member)
    messageFetch := fun a =>
      if a = "5" then .ok [msgN "8", msgN "7", msgN "6", msgN "5"] else .ok []
    reactionUsers := fun _ _ => .ok ([] : List User) }

/-- A remote whose message page at cursor 5 contains ids 8,7,6 descending —
only ids after the cursor, as the fetch collaborator's contract returns. -/
def R6good : Remote :=
  { guildRes := .ok g1
    memberFetch := fun _ => .ok ([] : List Member)
    messageFetch := fun a =>
      if a = "5" then .ok [msgN "8", msgN "7", msgN "6"] else .ok []
    reactionUsers := fun _ _ => .ok ([] : List User) }

/-- File growth: `b` is `a` with rows appended at the end and nothing else
touched. -/
def Grows (a b : List Row) : Prop := ∃ s, b = a ++ s

end Pullcord

namespace Pullcord

/-- Claim C1 (code_bug), evaluated at the failing input: running Pull twice
in succession over the same guild and channel with the remote unchanged (the
second invocation is a fresh process run, so the run-scoped gate is empty)
does NOT leave the guild file byte-identical.  The second run re-appends the
member row: member rows are written with entity type "member" but
change-detected against the EntryCache slot "user", which never holds
anything, so the detector always reports a difference.  The last conjunct
shows the freshly encoded member row is equal (in the sense of the detector)
to the row cached under the correct "member" key, i.e. the write the claim
forbids really happens on an unchanged entity. -/
theorem C1_second_run_appends :
    run1.guildFile = some [rowOf "t1" (.guild g1), rowOf "t1" (.member m1)] ∧
    run2.guildFile = some [rowOf "t1" (.guild g1), rowOf "t1" (.member m1),
      rowOf "t2" (.member m1)] ∧
    run2.guildFile ≠ run1.guildFile ∧
    Equals (GuildCache (run1.guildFile.getD []) "member" "u1")
      (rowOf "t2" (.member m1)) = true :=
  ⟨by decide, by decide, by decide, by decide⟩

/-- Claim C3 (code_bug), evaluated at the failing input: when the guild fetch
fully fails, Pull marks the run-scoped gate BEFORE calling pullGuild (so the
gate is marked, contrary to the claim), pullGuild logs the error but then
ranges over the nil guild's Channels and panics with a nil-pointer
dereference, and the process dies: the channel pull never proceeds (chanFile
is never even created). -/
theorem C3_guild_fetch_panics :
    Pull RGerr "t1" 5 chan1 st0 =
      { fetchedGuilds := ["g1"], guildFile := some [], chanFile := none,
        panicMsg := some "invalid memory address or nil pointer dereference" } := by
  decide

/-- Claim C7 (code_bug), evaluated at the failing input: with the EntryCache
reconstructed from a guild file that already holds this very member row,
pullGuild still appends the member row again.  The detector is consulted
against cache["user"], which never matches the rows written under entity
type "member" (second conjunct: the cached row under the correct "member" key
equals the fresh row, so a correctly-keyed detector would report no
difference), so member rows are effectively written unconditionally. -/
theorem C7_member_rewrite :
    (pullGuild R1 "t2" 5 "g1" (GuildCache gfile1) gfile1).1
        = gfile1 ++ [rowOf "t2" (.member m1)] ∧
    Equals (GuildCache gfile1 "member" "u1") (rowOf "t2" (.member m1)) = true :=
  ⟨by decide, by decide⟩

/-- Helper: the per-user reaction loop appends exactly one named row per
enumerated user and never panics. -/
theorem writeReactionUsers_eq (now chanID msgID : String) (em : Emoji) :
    ∀ (us : List User) (file : List Row),
      writeReactionUsers now chanID msgID em us file
        = (file ++ us.map (fun u =>
            rowOf now (.reaction ⟨⟨u.ID, msgID, em, chanID⟩, 0⟩)), none)
  | [], file => by simp [writeReactionUsers]
  | u :: us, file => by
    simp [writeReactionUsers, Make, MakeFields, Write, rowOf,
      writeReactionUsers_eq now chanID msgID em us]

/-- Claim C2 counterexample: with a guild-members fetch that fails, the
member pagination loop does not abort — it logs and reissues the identical
fetch with the same cursor "0", so within two observed iterations the same
fetch is issued twice, refuting "the same fetch is never reissued
automatically within the run". -/
theorem C2_counterexample :
    (membersLoop Rerr "t" emptyCache 2 "0" [] []).2.1 = ["0", "0"] := by decide

/-- Claim C2 as amended: a failed channel-message fetch ends the channel's
page loop after logging, with nothing written and no further fetch (the nil
page hits the empty check); a failed guild-members fetch is logged and then
retried — the loop reissues the identical fetch with the same cursor; a
failed reaction-user fetch does not abort the unit of work — it is treated
as zero enumerable users, processing continues, and the anonymous overflow
rows are still written when the reported count exceeds 100. -/
theorem C2_amended_thm :
    (∀ (remote : Remote) (now chanID : String) (fuel : Nat) (after : String)
        (file : List Row) (calls : List String),
      remote.messageFetch after = .error () →
      messagesLoop remote now chanID (fuel + 1) after file calls
        = (file, calls ++ [after], none)) ∧
    (∀ (remote : Remote) (now : String) (cache : EntryCache) (fuel : Nat)
        (after : String) (file : List Row) (calls : List String),
      remote.memberFetch after = .error () →
      membersLoop remote now cache (fuel + 1) after file calls
        = membersLoop remote now cache fuel after file (calls ++ [after])) ∧
    (∀ (remote : Remote) (now chanID msgID : String) (r : MessageReactions)
        (file : List Row),
      remote.reactionUsers msgID r.Emoji.APIName = .error () →
      processReaction remote now chanID msgID r file
        = (file ++ (if r.Count > 100 then
              List.replicate (r.Count - 100).toNat
                (rowOf now (.reaction ⟨⟨"", msgID, r.Emoji, chanID⟩, 0⟩))
            else []), none)) := by
  refine ⟨fun remote now chanID fuel after file calls h => ?_,
    fun remote now cache fuel after file calls h => ?_,
    fun remote now chanID msgID r file h => ?_⟩
  · simp [messagesLoop, h]
  · simp [membersLoop, h]
  · simp only [processReaction, h]
    rw [writeReactionUsers_eq]
    dsimp only
    simp only [overflowRows]
    split
    · simp [Make, MakeFields, rowOf]
    · simp

/-- Claim C2 witness: the amended statement applied at concrete inputs — the
all-failing remote, cursor "0", and the count-150 reaction. -/
theorem C2_witness :
    messagesLoop Rerr "t" "c1" 1 "0" [] [] = ([], ["0"], none) ∧
    membersLoop Rerr "t" emptyCache 1 "0" [] []
      = membersLoop Rerr "t" emptyCache 0 "0" [] ["0"] ∧
    processReaction Rerr "t" "c1" "m1" r150 []
      = ([] ++ (if r150.Count > 100 then
            List.replicate (r150.Count - 100).toNat
              (rowOf "t" (.reaction ⟨⟨"", "m1", r150.Emoji, "c1"⟩, 0⟩))
          else []), none) :=
  ⟨C2_amended_thm.1 Rerr "t" "c1" 0 "0" [] [] rfl,
   C2_amended_thm.2.1 Rerr "t" emptyCache 0 "0" [] [] rfl,
   C2_amended_thm.2.2 Rerr "t" "c1" "m1" r150 [] rfl⟩

/-- Claim C4 counterexample: a reaction with reported count 150 but only 40
enumerable users yields 40 named rows plus 150-100 = 50 anonymous rows — 90
reaction rows in total, not the 150 the claim demands (the overflow test
compares the count against the constant page bound 100, not against the
number of users actually enumerated). -/
theorem C4_counterexample :
    (processReaction R4 "t" "c1" "m1" r150 []).1.length = 90 ∧
    ¬ (processReaction R4 "t" "c1" "m1" r150 []).1.length = 150 :=
  ⟨by decide, by decide⟩

/-- Claim C4 as amended: the reacting users are fetched with one bounded call
(limit 100, not paged); one named row is written per enumerated user, and
anonymous rows are synthesized only when the reported count exceeds the
constant 100, numbering count-100 — so the total equals the reported count
only when exactly 100 users are enumerated (count 150 with 100 enumerable
users does yield 100 named plus 50 anonymous rows). -/
theorem C4_amended_thm (remote : Remote) (now chanID msgID : String)
    (r : MessageReactions) (file : List Row) (us : List User)
    (h : remote.reactionUsers msgID r.Emoji.APIName = .ok us) :
    processReaction remote now chanID msgID r file
      = (file
          ++ us.map (fun u => rowOf now (.reaction ⟨⟨u.ID, msgID, r.Emoji, chanID⟩, 0⟩))
          ++ (if r.Count > 100 then
                List.replicate (r.Count - 100).toNat
                  (rowOf now (.reaction ⟨⟨"", msgID, r.Emoji, chanID⟩, 0⟩))
              else []), none) := by
  simp only [processReaction, h]
  rw [writeReactionUsers_eq]
  dsimp only
  simp only [overflowRows]
  split
  · simp [Make, MakeFields, rowOf]
  · simp

/-- Claim C4 witness: the amended statement applied at the concrete
40-user, count-150 input. -/
theorem C4_witness :
    processReaction R4 "t" "c1" "m1" r150 []
      = ([] ++ users40.map (fun u =>
            rowOf "t" (.reaction ⟨⟨u.ID, "m1", r150.Emoji, "c1"⟩, 0⟩))
          ++ (if r150.Count > 100 then
                List.replicate (r150.Count - 100).toNat
                  (rowOf "t" (.reaction ⟨⟨"", "m1", r150.Emoji, "c1"⟩, 0⟩))
              else []), none) :=
  C4_amended_thm R4 "t" "c1" "m1" r150 [] users40 rfl

/-- Claim C5 counterexample: an unknown permission-overwrite type (value 2)
does not degrade to a sentinel — formatPermOverwriteType calls log.Panicf,
modelled as Except.error, and the panic propagates through the encoding of
the whole overwrite entity: no well-formed row is produced. -/
theorem C5_counterexample :
    formatPermOverwriteType 2
        = Except.error "unsupported permission overwrite type 2" ∧
    Make "t" "history" "add" (.permoverwrite ⟨"o2", 2, 0, 0⟩)
        = Except.error "unsupported permission overwrite type 2" :=
  ⟨rfl, rfl⟩

/-- Claim C5 as amended: unknown message subtypes degrade to the visible
sentinel "unknown-N" and unknown channel subtypes to "invalid", but an
unknown permission-overwrite type aborts: formatPermOverwriteType panics
(log.Panicf) instead of producing a sentinel row. -/
theorem C5_amended_thm :
    (∀ t : Nat, t ∉ [0, 1, 2, 3, 4, 5, 6, 7, 19, 20] →
      formatMessageType t = "unknown-" ++ toString t) ∧
    (∀ t : Nat, t ∉ [0, 1, 2, 3, 4, 5, 6] →
      formatChannelType t = "invalid") ∧
    (∀ t : Nat, t ∉ [0, 1] →
      formatPermOverwriteType t
        = Except.error ("unsupported permission overwrite type " ++ toString t)) := by
  refine ⟨fun t h => ?_, fun t h => ?_, fun t h => ?_⟩
  · simp only [List.mem_cons, List.not_mem_nil, or_false, not_or] at h
    obtain ⟨h0, h1, h2, h3, h4, h5, h6, h7, h19, h20⟩ := h
    simp [formatMessageType, MessageTypeDefault, MessageTypeRecipientAdd,
      MessageTypeRecipientRemove, MessageTypeCall, MessageTypeChannelNameChange,
      MessageTypeChannelIconChange, MessageTypeChannelPinnedMessage,
      MessageTypeGuildMemberJoin, MessageTypeReply, MessageTypeChatInputCommand,
      h0, h1, h2, h3, h4, h5, h6, h7, h19, h20]
  · simp only [List.mem_cons, List.not_mem_nil, or_false, not_or] at h
    obtain ⟨h0, h1, h2, h3, h4, h5, h6⟩ := h
    simp [formatChannelType, ChannelTypeGuildText, ChannelTypeDM,
      ChannelTypeGuildVoice, ChannelTypeGroupDM, ChannelTypeGuildCategory,
      ChannelTypeGuildNews, ChannelTypeGuildStore, h0, h1, h2, h3, h4, h5, h6]
  · simp only [List.mem_cons, List.not_mem_nil, or_false, not_or] at h
    obtain ⟨h0, h1⟩ := h
    simp [formatPermOverwriteType, PermissionOverwriteTypeRole,
      PermissionOverwriteTypeMember, h0, h1]

/-- Claim C5 witness: the amended statement applied at the concrete unknown
sub-enum value 21. -/
theorem C5_witness :
    formatMessageType 21 = "unknown-" ++ toString 21 ∧
    formatChannelType 21 = "invalid" ∧
    formatPermOverwriteType 21
      = Except.error ("unsupported permission overwrite type " ++ toString 21) :=
  ⟨C5_amended_thm.1 21 (by decide), C5_amended_thm.2.1 21 (by decide),
   C5_amended_thm.2.2 21 (by decide)⟩

/-- Claim C6 counterexample: with resume cursor "5" and a page containing ids
[8,7,6,5] descending, the loop writes ALL four ids — including 5, which the
claim says is excluded — in ascending order 5,6,7,8 (the code never filters
the page against the cursor; only the remote's after-bound excludes old
ids).  The second conjunct shows the cursor did advance to 8 for the next
fetch. -/
theorem C6_counterexample :
    ((messagesLoop R6bad "t" "c1" 5 "5" [] []).1.map fun r => r.getD 4 "")
        = ["5", "6", "7", "8"] ∧
    (messagesLoop R6bad "t" "c1" 5 "5" [] []).2.1 = ["5", "8"] :=
  ⟨by decide, by decide⟩

/-- Claim C6 as amended: message rows are written in ascending id order even
though the page arrives in descending order, and the cursor advances to the
page's maximum (first) id — but the code writes every id in the returned
page without filtering against the cursor; ids at or below the cursor are
excluded only because the fetch collaborator's after-bound excludes them.
With cursor "5" and the contract-honoring page [8,7,6], exactly ids 6,7,8
are written, in the order 6 then 7 then 8, and the next fetch uses cursor
"8". -/
theorem C6_amended_thm :
    ((messagesLoop R6good "t" "c1" 5 "5" [] []).1.map fun r => r.getD 4 "")
        = ["6", "7", "8"] ∧
    (messagesLoop R6good "t" "c1" 5 "5" [] []).2.1 = ["5", "8"] :=
  ⟨by decide, by decide⟩

/-- Claim C8 counterexample: encoding is not mutation-free and not
timestamp-independent.  Encoding the member whose roles arrive as
["r2","r1"] leaves the entity with its role list sorted in place (first
conjunct: the entity after the call differs from the input), and encoding
the same entity at two capture times yields rows differing in the timestamp
column (second conjunct). -/
theorem C8_counterexample :
    (Make "t1" "history" "add" (.member m1)).toOption.map Prod.snd
        ≠ some (.member m1) ∧
    (Make "t1" "history" "add" (.member m1)).toOption.map Prod.fst
        ≠ (Make "t2" "history" "add" (.member m1)).toOption.map Prod.fst :=
  ⟨by decide, by decide⟩

/-- Claim C8 as amended: encoding performs no I/O and is deterministic given
the capture timestamp — two encodings of the same entity differ at most in
the leading timestamp column (first conjunct) — and the input entity is left
exactly as MakeEnt describes (second conjunct): unchanged for every entity
kind except a member, whose role-id list is sorted in place (third
conjunct). -/
theorem C8_amended_thm :
    (∀ (now now2 ftype op : String) (v : Entity),
      ((Make now ftype op v).map fun p => p.1.drop 1)
        = ((Make now2 ftype op v).map fun p => p.1.drop 1)) ∧
    (∀ (now ftype op : String) (v : Entity),
      Make now ftype op v = (Make now ftype op v).map fun p => (p.1, MakeEnt v)) ∧
    (∀ mem : Member,
      MakeEnt (.member mem) = .member { mem with Roles := sortStrings mem.Roles }) := by
  refine ⟨fun now now2 ftype op v => ?_, fun now ftype op v => ?_, fun mem => rfl⟩
  · cases v <;> try rfl
    case permoverwrite o =>
      simp only [Make, MakeFields]
      cases formatPermOverwriteType o.OverType <;> rfl
  · cases v <;> try rfl
    case permoverwrite o =>
      simp only [Make, MakeFields]
      cases formatPermOverwriteType o.OverType <;> rfl

/-- Helper: growth is reflexive. -/
theorem grows_refl (a : List Row) : Grows a a := ⟨[], by simp⟩

/-- Helper: growth is transitive. -/
theorem grows_trans {a b c : List Row} (h1 : Grows a b) (h2 : Grows b c) :
    Grows a c := by
  obtain ⟨s, rfl⟩ := h1
  obtain ⟨t, rfl⟩ := h2
  exact ⟨s ++ t, by simp⟩

/-- Helper: appending a suffix is growth. -/
theorem grows_append (a s : List Row) : Grows a (a ++ s) := ⟨s, rfl⟩

/-- Helper: Write only appends. -/
theorem grows_Write (a : List Row) (e : Row) : Grows a (Write a e) := ⟨[e], rfl⟩

/-- Helper: a change-detected write only appends. -/
theorem grows_cdWrite (cache : EntryCache) (t i : String) (e : Row)
    (a : List Row) : Grows a (cdWrite cache t i e a) := by
  unfold cdWrite
  split
  · exact grows_Write a e
  · exact grows_refl a

/-- Helper: the member-writing inner loop only appends. -/
theorem grows_writeMembers (now : String) (cache : EntryCache)
    (ms : List Member) : ∀ (after : String) (file : List Row),
      Grows file (writeMembers now cache ms after file).2.1 := by
  induction ms with
  | nil => exact fun after file => grows_refl file
  | cons m ms ih =>
    intro after file
    simp only [writeMembers]
    split
    · exact grows_refl file
    · exact grows_trans (grows_cdWrite _ _ _ _ _) (ih _ _)

/-- Helper: the member pagination loop only appends. -/
theorem grows_membersLoop (remote : Remote) (now : String) (cache : EntryCache)
    (fuel : Nat) : ∀ (after : String) (file : List Row) (calls : List String),
      Grows file (membersLoop remote now cache fuel after file calls).1 := by
  induction fuel with
  | zero => exact fun after file calls => grows_refl file
  | succ fuel ih =>
    intro after file calls
    simp only [membersLoop]
    split
    · exact ih _ _ _
    · next members hfetch =>
      split
      · exact grows_refl file
      · split
        · next after2 file2 p heq =>
          have h1 := grows_writeMembers now cache members after file
          rw [heq] at h1
          exact h1
        · next after2 file2 heq =>
          have h1 := grows_writeMembers now cache members after file
          rw [heq] at h1
          exact grows_trans h1 (ih _ _ _)

/-- Helper: the permission-overwrite loop only appends. -/
theorem grows_writePermOverwrites (now : String) (cache : EntryCache)
    (os : List PermissionOverwrite) : ∀ (file : List Row),
      Grows file (writePermOverwrites now cache os file).1 := by
  induction os with
  | nil => exact fun file => grows_refl file
  | cons o os ih =>
    intro file
    simp only [writePermOverwrites]
    split
    · exact grows_refl file
    · exact grows_trans (grows_cdWrite _ _ _ _ _) (ih _)

/-- Helper: the channel loop of the guild sync only appends. -/
theorem grows_writeChannels (now : String) (cache : EntryCache)
    (cs : List Channel) : ∀ (file : List Row),
      Grows file (writeChannels now cache cs file).1 := by
  induction cs with
  | nil => exact fun file => grows_refl file
  | cons c cs ih =>
    intro file
    simp only [writeChannels]
    split
    · exact grows_refl file
    · next cEntry v heq0 =>
      split
      · next file2 p heq =>
        have h1 := grows_writePermOverwrites now cache c.PermissionOverwrites
          (cdWrite cache "channel" c.ID cEntry file)
        rw [heq] at h1
        exact grows_trans (grows_cdWrite _ _ _ _ _) h1
      · next file2 heq =>
        have h1 := grows_writePermOverwrites now cache c.PermissionOverwrites
          (cdWrite cache "channel" c.ID cEntry file)
        rw [heq] at h1
        exact grows_trans (grows_trans (grows_cdWrite _ _ _ _ _) h1) (ih _)

/-- Helper: the role loop only appends. -/
theorem grows_writeRoles (now : String) (cache : EntryCache)
    (rs : List Role) : ∀ (file : List Row),
      Grows file (writeRoles now cache rs file).1 := by
  induction rs with
  | nil => exact fun file => grows_refl file
  | cons r rs ih =>
    intro file
    simp only [writeRoles]
    split
    · exact grows_refl file
    · exact grows_trans (grows_cdWrite _ _ _ _ _) (ih _)

/-- Helper: the emoji loop only appends. -/
theorem grows_writeEmojis (now : String) (cache : EntryCache)
    (es : List Emoji) : ∀ (file : List Row),
      Grows file (writeEmojis now cache es file).1 := by
  induction es with
  | nil => exact fun file => grows_refl file
  | cons e es ih =>
    intro file
    simp only [writeEmojis]
    split
    · exact grows_refl file
    · exact grows_trans (grows_cdWrite _ _ _ _ _) (ih _)

/-- Helper: pullGuild only appends to the guild file. -/
theorem grows_pullGuild (remote : Remote) (now : String) (fuel : Nat)
    (id : String) (cache : EntryCache) (file : List Row) :
    Grows file (pullGuild remote now fuel id cache file).1 := by
  unfold pullGuild
  split
  · exact grows_refl file
  · next guild hgr =>
    split
    · exact grows_refl file
    · next gEntry v heq0 =>
      dsimp only
      split
      · next file1 p heq1 =>
        have h1 := grows_writeChannels now cache guild.Channels
          (cdWrite cache "guild" id gEntry file)
        rw [heq1] at h1
        exact grows_trans (grows_cdWrite _ _ _ _ _) h1
      · next file1 heq1 =>
        have h1 := grows_writeChannels now cache guild.Channels
          (cdWrite cache "guild" id gEntry file)
        rw [heq1] at h1
        have g1 := grows_trans (grows_cdWrite cache "guild" id gEntry file) h1
        split
        · next file2 p heq2 =>
          have h2 := grows_writeRoles now cache guild.Roles file1
          rw [heq2] at h2
          exact grows_trans g1 h2
        · next file2 heq2 =>
          have h2 := grows_writeRoles now cache guild.Roles file1
          rw [heq2] at h2
          have g2 := grows_trans g1 h2
          split
          · next file3 p heq3 =>
            have h3 := grows_writeEmojis now cache guild.Emojis file2
            rw [heq3] at h3
            exact grows_trans g2 h3
          · next file3 heq3 =>
            have h3 := grows_writeEmojis now cache guild.Emojis file2
            rw [heq3] at h3
            exact grows_trans (grows_trans g2 h3)
              (grows_membersLoop remote now cache fuel "0" file3 [])

/-- Helper: the per-user reaction loop only appends. -/
theorem grows_writeReactionUsers (now chanID msgID : String) (em : Emoji)
    (us : List User) (file : List Row) :
    Grows file (writeReactionUsers now chanID msgID em us file).1 := by
  rw [writeReactionUsers_eq]
  exact grows_append file _

/-- Helper: the anonymized-overflow block only appends. -/
theorem grows_overflowRows (now chanID msgID : String) (r : MessageReactions)
    (file : List Row) : Grows file (overflowRows now chanID msgID r file).1 := by
  unfold overflowRows
  dsimp only
  split
  · split
    · exact grows_refl file
    · exact grows_append file _
  · exact grows_refl file

/-- Helper: the named-rows-then-overflow processing of one enumerated user
list only appends. -/
theorem grows_processReactionWith (now chanID msgID : String)
    (r : MessageReactions) (users : List User) (file : List Row) :
    Grows file ((match writeReactionUsers now chanID msgID r.Emoji users file with
      | (file, some p) => (file, some p)
      | (file, none) => overflowRows now chanID msgID r file).1) := by
  split
  · next file1 p heq =>
    have h1 := grows_writeReactionUsers now chanID msgID r.Emoji users file
    rw [heq] at h1
    exact h1
  · next file1 heq =>
    have h1 := grows_writeReactionUsers now chanID msgID r.Emoji users file
    rw [heq] at h1
    exact grows_trans h1 (grows_overflowRows now chanID msgID r file1)

/-- Helper: one reaction's processing only appends. -/
theorem grows_processReaction (remote : Remote) (now chanID msgID : String)
    (r : MessageReactions) (file : List Row) :
    Grows file (processReaction remote now chanID msgID r file).1 := by
  unfold processReaction
  cases hr : remote.reactionUsers msgID r.Emoji.APIName with
  | error e =>
    dsimp only
    exact grows_processReactionWith now chanID msgID r [] file
  | ok us =>
    dsimp only
    exact grows_processReactionWith now chanID msgID r us file

/-- Helper: the reaction loop of one message only appends. -/
theorem grows_processReactions (remote : Remote) (now chanID msgID : String)
    (rs : List MessageReactions) : ∀ (file : List Row),
      Grows file (processReactions remote now chanID msgID rs file).1 := by
  induction rs with
  | nil => exact fun file => grows_refl file
  | cons r rs ih =>
    intro file
    simp only [processReactions]
    split
    · next file1 p heq =>
      have h1 := grows_processReaction remote now chanID msgID r file
      rw [heq] at h1
      exact h1
    · next file1 heq =>
      have h1 := grows_processReaction remote now chanID msgID r file
      rw [heq] at h1
      exact grows_trans h1 (ih _)

/-- Helper: the embed loop only appends. -/
theorem grows_writeEmbedRows (now msgID : String) (es : List MessageEmbed) :
    ∀ (file : List Row), Grows file (writeEmbedRows now msgID es file).1 := by
  induction es with
  | nil => exact fun file => grows_refl file
  | cons e es ih =>
    intro file
    simp only [writeEmbedRows]
    split
    · exact grows_refl file
    · exact grows_trans (grows_Write _ _) (ih _)

/-- Helper: the attachment loop only appends. -/
theorem grows_writeAttachmentRows (now msgID : String)
    (as_ : List MessageAttachment) : ∀ (file : List Row),
      Grows file (writeAttachmentRows now msgID as_ file).1 := by
  induction as_ with
  | nil => exact fun file => grows_refl file
  | cons a as_ ih =>
    intro file
    simp only [writeAttachmentRows]
    split
    · exact grows_refl file
    · exact grows_trans (grows_Write _ _) (ih _)

/-- Helper: one message's processing only appends. -/
theorem grows_processMessage (remote : Remote) (now chanID : String)
    (m : Message) (file : List Row) :
    Grows file (processMessage remote now chanID m file).1 := by
  unfold processMessage
  split
  · exact grows_refl file
  · next row v heq0 =>
    dsimp only
    split
    · next file1 p heq1 =>
      have h1 := grows_writeEmbedRows now m.ID m.Embeds (Write file row)
      rw [heq1] at h1
      exact grows_trans (grows_Write file row) h1
    · next file1 heq1 =>
      have h1 := grows_writeEmbedRows now m.ID m.Embeds (Write file row)
      rw [heq1] at h1
      have g1 := grows_trans (grows_Write file row) h1
      split
      · next file2 p heq2 =>
        have h2 := grows_writeAttachmentRows now m.ID m.Attachments file1
        rw [heq2] at h2
        exact grows_trans g1 h2
      · next file2 heq2 =>
        have h2 := grows_writeAttachmentRows now m.ID m.Attachments file1
        rw [heq2] at h2
        exact grows_trans (grows_trans g1 h2)
          (grows_processReactions remote now chanID m.ID m.Reactions file2)

/-- Helper: the ascending page walk only appends. -/
theorem grows_processMessagesAsc (remote : Remote) (now chanID : String)
    (ms : List Message) : ∀ (file : List Row),
      Grows file (processMessagesAsc remote now chanID ms file).1 := by
  induction ms with
  | nil => exact fun file => grows_refl file
  | cons m ms ih =>
    intro file
    simp only [processMessagesAsc]
    split
    · next file1 p heq =>
      have h1 := grows_processMessage remote now chanID m file
      rw [heq] at h1
      exact h1
    · next file1 heq =>
      have h1 := grows_processMessage remote now chanID m file
      rw [heq] at h1
      exact grows_trans h1 (ih _)

/-- Helper: the message pagination loop only appends. -/
theorem grows_messagesLoop (remote : Remote) (now chanID : String)
    (fuel : Nat) : ∀ (after : String) (file : List Row) (calls : List String),
      Grows file (messagesLoop remote now chanID fuel after file calls).1 := by
  induction fuel with
  | zero => exact fun after file calls => grows_refl file
  | succ fuel ih =>
    intro after file calls
    simp only [messagesLoop]
    split
    · exact grows_refl file
    · next m0 rest heq =>
      split
      · next file1 p heq1 =>
        rw [heq] at heq1
        have h1 := grows_processMessagesAsc remote now chanID
          ((m0 :: rest).reverse) file
        rw [heq1] at h1
        exact h1
      · next file1 heq1 =>
        rw [heq] at heq1
        have h1 := grows_processMessagesAsc remote now chanID
          ((m0 :: rest).reverse) file
        rw [heq1] at h1
        exact grows_trans h1 (ih _ _ _)

/-- Helper: pullChannel only appends to the channel file. -/
theorem grows_pullChannel (remote : Remote) (now : String) (fuel : Nat)
    (gid id after : String) (file : List Row) :
    Grows file (pullChannel remote now fuel gid id after file).1 :=
  grows_messagesLoop remote now id fuel after file []

/-- Helper: pullAfterGuild leaves the guild file untouched and only appends
to the channel file. -/
theorem grows_pullAfterGuild (remote : Remote) (now : String) (fuel : Nat)
    (c : Channel) (st : PullState) :
    (pullAfterGuild remote now fuel c st).guildFile = st.guildFile ∧
    Grows (st.chanFile.getD [])
      ((pullAfterGuild remote now fuel c st).chanFile.getD []) := by
  unfold pullAfterGuild
  split
  · next hcf =>
    refine ⟨rfl, ?_⟩
    rw [hcf]
    exact grows_pullChannel remote now fuel c.GuildID c.ID "0" []
  · next cf hcf =>
    split
    · exact ⟨rfl, grows_refl _⟩
    · next last hlast =>
      refine ⟨rfl, ?_⟩
      rw [hcf]
      exact grows_pullChannel remote now fuel c.GuildID c.ID last cf

/-- Claim C9: every write to a log file is an append.  The guild and channel
files are opened in append/create mode (modelled by the functions receiving
the rows already on disk), and each of pullGuild, pullChannel and the whole
Pull orchestration leaves the previous contents as an unmodified initial
segment, only ever adding rows at the end — including when a run ends in a
panic. -/
theorem C9_append_only :
    (∀ (remote : Remote) (now : String) (fuel : Nat) (id : String)
        (cache : EntryCache) (file : List Row),
      Grows file (pullGuild remote now fuel id cache file).1) ∧
    (∀ (remote : Remote) (now : String) (fuel : Nat) (gid id after : String)
        (file : List Row),
      Grows file (pullChannel remote now fuel gid id after file).1) ∧
    (∀ (remote : Remote) (now : String) (fuel : Nat) (c : Channel)
        (st : PullState),
      Grows (st.guildFile.getD []) ((Pull remote now fuel c st).guildFile.getD []) ∧
      Grows (st.chanFile.getD []) ((Pull remote now fuel c st).chanFile.getD [])) := by
  refine ⟨grows_pullGuild, grows_pullChannel, fun remote now fuel c st => ?_⟩
  unfold Pull
  split
  · obtain ⟨h1, h2⟩ := grows_pullAfterGuild remote now fuel c st
    constructor
    · rw [h1]
      exact grows_refl _
    · exact h2
  · dsimp only
    split
    · next p heq =>
      constructor
      · exact grows_pullGuild remote now fuel c.GuildID _ _
      · exact grows_refl _
    · next heq =>
      obtain ⟨h1, h2⟩ := grows_pullAfterGuild remote now fuel c
        { st with
          fetchedGuilds := c.GuildID :: st.fetchedGuilds
          guildFile := some (pullGuild remote now fuel c.GuildID
            (match st.guildFile with
              | some gf => GuildCache gf
              | none => emptyCache) (st.guildFile.getD [])).1
          panicMsg := (pullGuild remote now fuel c.GuildID
            (match st.guildFile with
              | some gf => GuildCache gf
              | none => emptyCache) (st.guildFile.getD [])).2.2 }
      constructor
      · rw [h1]
        exact grows_pullGuild remote now fuel c.GuildID _ _
      · exact h2

/-- Claim C10: in an encoded message row the author-override username and
avatar columns (indices 10 and 11 of the full row) are both empty exactly
when the message's webhook id is empty, and carry the author's actual
username and avatar exactly when the message was sent by a webhook. -/
theorem C10_webhook_override (now ftype op : String) (m : Message) :
    ((Make now ftype op (.message m)).map fun p => (p.1.getD 10 "x", p.1.getD 11 "x"))
      = Except.ok (if m.WebhookID = "" then ("", "")
                   else (m.Author.Username, m.Author.Avatar)) := by
  by_cases hw : m.WebhookID = "" <;>
    simp only [Make, MakeFields, hw] <;> rfl

end Pullcord
